import Mathlib

/-!
Shallow embedding of `src/src/rendezvous_server.rs` (rustdesk rendezvous server).

Modelling conventions:
* Monotonic time (`std::time::Instant`) is an `Int` counting milliseconds; the
  current instant is passed explicitly as a `now` parameter to every operation
  that calls `Instant::now()` in the source.  `Duration::as_millis` of
  `t.elapsed()` is `(now - t).toNat` (Rust guarantees a non-negative duration,
  saturating at zero).  The `as i32` cast in the source is modelled by
  `asI32`, which reduces modulo 2^32 and reinterprets as a signed 32-bit value.
* Byte vectors (`Vec<u8>`, `Bytes`) are `List Nat`.
* The in-memory `HashMap` cache and the sled durable store are association
  lists; insertion conses a fresh binding, lookup finds the most recent one.
* The durable store writes (`db.insert`) are fire-and-forget in the source;
  sequentially they take effect, so the model applies them synchronously.
* `AddrMangle` lives in the external `hbb_common` crate (out of scope per the
  spec, which specifies only its interface `encode/decode` as an opaque
  reversible transform).  It is modelled from the spec as a concrete
  reversible encoding of a socket address into bytes.
* The TCP sink map `tcp_punch : HashMap<SocketAddr, Sink>` only ever matters
  through which addresses hold a live sink, so it is modelled as the list of
  those addresses.
-/

/-- IP address, mirroring Rust `IpAddr` (V4 or V6); the numeric payload stands
for the address bytes. -/
inductive IpAddr
  | v4 (a : Nat)
  | v6 (a : Nat)
deriving DecidableEq, Repr

/-- Mirror of `std::net::SocketAddr` (address family + address + port). -/
structure SocketAddr where
  ip : IpAddr
  port : Nat
deriving DecidableEq, Repr

/-- Mirror of `struct Peer { socket_addr, last_reg_time, pk }`. -/
structure Peer where
  socket_addr : SocketAddr
  last_reg_time : Int
  pk : List Nat
deriving DecidableEq, Repr

/-- Mirror of `impl Default for Peer`: endpoint `0.0.0.0:0`, registration time
one hour (3600000 ms) before the current instant, empty public key.  The
source evaluates `Instant::now()` at the call site, hence the `now`
parameter. -/
def Peer.default (now : Int) : Peer :=
  { socket_addr := { ip := IpAddr.v4 0, port := 0 }
    last_reg_time := now - 3600000
    pk := [] }

/-- Mirror of `struct PeerSerde { ip, pk }`, the durable-store record.  The
source stores `socket_addr.ip().to_string()`; since `to_string` is injective
on IP addresses and the field is never read back, it is modelled by the
address itself. -/
structure PeerSerde where
  ip : IpAddr
  pk : List Nat
deriving DecidableEq, Repr

/-- Association-list lookup (most recent binding wins). -/
def alookup {κ α : Type} [DecidableEq κ] : List (κ × α) → κ → Option α
  | [], _ => none
  | (k, v) :: rest, k0 => if k = k0 then some v else alookup rest k0

/-- Association-list insert/overwrite, modelling `HashMap::insert` /
`sled` insert. -/
def ainsert {κ α : Type} [DecidableEq κ] (m : List (κ × α)) (k : κ) (v : α) :
    List (κ × α) :=
  (k, v) :: m

/-- Mirror of `struct PeerMap { map, db }`: in-memory cache plus durable
store. -/
structure PeerMap where
  map : List (String × Peer)
  db : List (String × PeerSerde)
deriving DecidableEq, Repr

/-- Mirror of `PeerMap::update_pk`: overwrite the cache entry with the new
endpoint, a fresh registration time and the candidate key, and persist
`{ip, pk}` to the durable store. -/
def PeerMap.update_pk (now : Int) (s : PeerMap) (id : String)
    (socket_addr : SocketAddr) (pk : List Nat) : PeerMap :=
  { map := ainsert s.map id
      { socket_addr := socket_addr, last_reg_time := now, pk := pk }
    db := ainsert s.db id { ip := socket_addr.ip, pk := pk } }

/-- Mirror of `PeerMap::get`: on a cache hit return the cached record and
leave the state alone; on a cache miss consult the durable store, and on a
store hit insert a cache entry carrying the persisted key but otherwise
`Peer::default()` fields, while returning a plain `Peer::default()` (not the
hydrated entry); on a miss everywhere return `none`. -/
def PeerMap.get (now : Int) (s : PeerMap) (id : String) :
    Option Peer × PeerMap :=
  match alookup s.map id with
  | some p => (some p, s)
  | none =>
    match alookup s.db id with
    | some v =>
      (some (Peer.default now),
       { s with map := ainsert s.map id { Peer.default now with pk := v.pk } })
    | none => (none, s)

/-- Mirror of `PeerMap::is_in_memory`. -/
def PeerMap.is_in_memory (s : PeerMap) (id : String) : Bool :=
  (alookup s.map id).isSome

/-- Mirror of `const REG_TIMEOUT: i32 = 30_000`. -/
def REG_TIMEOUT : Int := 30000

/-- Rust `u128 as i32` on a millisecond count: keep the low 32 bits and
reinterpret them as a two's-complement signed value. -/
def asI32 (n : Nat) : Int :=
  let m : Nat := n % 4294967296
  if m < 2147483648 then (m : Int) else (m : Int) - 4294967296

example : asI32 3600000 = 3600000 := by decide
example : asI32 2147483648 = -2147483648 := by decide

/-- Mirror of `register_pk_response::Result`. -/
inductive RegisterPkResult
  | OK
  | PK_MISMATCH
deriving DecidableEq, Repr

/-- Mirror of `punch_hole_response::Failure` (the protobuf default value of
the field is modelled as `NONE`). -/
inductive Failure
  | NONE
  | OFFLINE
  | ID_NOT_EXIST
deriving DecidableEq, Repr

/-- Outgoing `RendezvousMessage` variants the server produces. -/
inductive RendezvousMessage
  | register_peer_response (request_pk : Bool)
  | register_pk_response (result : RegisterPkResult)
  | punch_hole_response (socket_addr : List Nat) (failure : Failure)
  | fetch_local_addr (socket_addr : List Nat)
  | punch_hole (socket_addr : List Nat)
deriving DecidableEq, Repr

/-- Incoming `RendezvousMessage` variants (already parsed: `other` stands for
any unrecognized or absent union variant, which the source ignores). -/
inductive RMsgIn
  | register_peer (id : String)
  | register_pk (id : String) (pk : List Nat)
  | punch_hole_request (id : String)
  | punch_hole_sent (socket_addr : List Nat)
  | local_addr (socket_addr : List Nat) (laddr : List Nat)
  | system_info (value : String)
  | other
deriving DecidableEq, Repr

/-- Modelled from the spec: `AddrMangle::encode` of the external `hbb_common`
crate, an opaque reversible transform from a socket address to bytes (§6 of
the spec). -/
def AddrMangle.encode (a : SocketAddr) : List Nat :=
  match a.ip with
  | IpAddr.v4 x => [0, x, a.port]
  | IpAddr.v6 x => [1, x, a.port]

/-- Modelled from the spec: `AddrMangle::decode`, the inverse transform
(arbitrary bytes decode to some address; on `encode` output it recovers the
address). -/
def AddrMangle.decode (b : List Nat) : SocketAddr :=
  match b with
  | [0, x, p] => { ip := IpAddr.v4 x, port := p }
  | [1, x, p] => { ip := IpAddr.v6 x, port := p }
  | _ => { ip := IpAddr.v4 0, port := 0 }

example : ∀ a : SocketAddr, AddrMangle.decode (AddrMangle.encode a) = a := by
  intro ⟨ip, p⟩; cases ip <;> rfl

/-- Mirror of `struct RendezvousServer { tcp_punch, pm, tx }`.  The sink map
is modelled by the set (list) of addresses holding a live sink; the `tx`
sender needs no state. -/
structure RendezvousServer where
  tcp_punch : List SocketAddr
  pm : PeerMap
deriving DecidableEq, Repr

/-- Mirror of `send_to_tcp` / `send_to_tcp_sync`: remove the sink for `addr`
from `tcp_punch`; if one was present the message goes out on it, otherwise
nothing is delivered. -/
def RendezvousServer.send_to_tcp (rs : RendezvousServer)
    (msg : RendezvousMessage) (addr : SocketAddr) :
    Option (RendezvousMessage × SocketAddr) × RendezvousServer :=
  ((if rs.tcp_punch.contains addr then some (msg, addr) else none),
   { rs with tcp_punch := rs.tcp_punch.filter (fun a => a ≠ addr) })

/-- Mirror of `handle_hole_sent`: decode the requester endpoint embedded in
`punch_hole_sent.socket_addr`, build a `punch_hole_response` carrying the
server-observed sender endpoint, and deliver it to the decoded address —
directly over the UDP socket when one was passed (`viaUdp`), else through the
requester's pending TCP sink. -/
def RendezvousServer.handle_hole_sent (rs : RendezvousServer)
    (phs_socket_addr : List Nat) (addr : SocketAddr) (viaUdp : Bool) :
    Option (RendezvousMessage × SocketAddr) × RendezvousServer :=
  let addr_a := AddrMangle.decode phs_socket_addr
  let msg_out := RendezvousMessage.punch_hole_response
    (AddrMangle.encode addr) Failure.NONE
  if viaUdp then (some (msg_out, addr_a), rs)
  else rs.send_to_tcp msg_out addr_a

/-- Mirror of `handle_local_addr`: like `handle_hole_sent`, but the response
carries the raw `local_addr` bytes reported by the target. -/
def RendezvousServer.handle_local_addr (rs : RendezvousServer)
    (la_socket_addr : List Nat) (la_local_addr : List Nat) (addr : SocketAddr)
    (viaUdp : Bool) :
    Option (RendezvousMessage × SocketAddr) × RendezvousServer :=
  let addr_a := AddrMangle.decode la_socket_addr
  let msg_out := RendezvousMessage.punch_hole_response la_local_addr Failure.NONE
  if viaUdp then (some (msg_out, addr_a), rs)
  else rs.send_to_tcp msg_out addr_a

/-- Mirror of the `same_intranet` computation in `handle_punch_hole_request`:
equal IPs of the same address family; a family mismatch counts as a different
network. -/
def same_intranet_check (peer_addr requester : SocketAddr) : Bool :=
  match peer_addr.ip, requester.ip with
  | IpAddr.v4 a, IpAddr.v4 b => a = b
  | IpAddr.v6 a, IpAddr.v6 b => a = b
  | _, _ => false

/-- Mirror of `handle_punch_hole_request`: look the target up (hydrating from
the durable store on a cache miss), answer `OFFLINE` when the 32-bit cast of
the elapsed milliseconds since its last registration reaches `REG_TIMEOUT`,
answer `ID_NOT_EXIST` when the id is unknown everywhere, and otherwise build
`fetch_local_addr` (same intranet) or `punch_hole` (different network)
carrying the encoded requester endpoint, destined for the target's last known
endpoint.  The first component is the message and its optional forward
destination (`none` means the response goes back to the requester). -/
def RendezvousServer.handle_punch_hole_request (now : Int)
    (rs : RendezvousServer) (addr : SocketAddr) (id : String) :
    (RendezvousMessage × Option SocketAddr) × RendezvousServer :=
  match rs.pm.get now id with
  | (some peer, pm1) =>
    if asI32 (now - peer.last_reg_time).toNat ≥ REG_TIMEOUT then
      ((RendezvousMessage.punch_hole_response [] Failure.OFFLINE, none),
       { rs with pm := pm1 })
    else
      let socket_addr := AddrMangle.encode addr
      if same_intranet_check peer.socket_addr addr then
        ((RendezvousMessage.fetch_local_addr socket_addr,
          some peer.socket_addr), { rs with pm := pm1 })
      else
        ((RendezvousMessage.punch_hole socket_addr,
          some peer.socket_addr), { rs with pm := pm1 })
  | (none, pm1) =>
    ((RendezvousMessage.punch_hole_response [] Failure.ID_NOT_EXIST, none),
     { rs with pm := pm1 })

/-- Mirror of the `register_pk` branch of `handle_msg`: look the id up
(hydrating from the durable store on a cache miss); an absent record or an
empty cached key accepts and persists the candidate; a non-empty differing
key answers `PK_MISMATCH` without mutating; a non-empty equal key answers
`OK` without mutating.  Returns the `register_pk_response` result (sent back
to `addr`) and the new state. -/
def RendezvousServer.handle_register_pk (now : Int) (rs : RendezvousServer)
    (id : String) (addr : SocketAddr) (pk : List Nat) :
    RegisterPkResult × RendezvousServer :=
  match rs.pm.get now id with
  | (some peer, pm1) =>
    if peer.pk = [] then
      (RegisterPkResult.OK, { rs with pm := pm1.update_pk now id addr pk })
    else if peer.pk ≠ pk then
      (RegisterPkResult.PK_MISMATCH, { rs with pm := pm1 })
    else
      (RegisterPkResult.OK, { rs with pm := pm1 })
  | (none, pm1) =>
    (RegisterPkResult.OK, { rs with pm := pm1.update_pk now id addr pk })

/-- Mirror of `update_addr` (the `register_peer` path): refresh a cached
entry's endpoint and registration time in place, or hydrate an uncached id
from the durable store (empty key on a store miss) with the real endpoint;
either way answer `register_peer_response{request_pk}` to the sender, where
`request_pk` says whether the public key is still unset. -/
def RendezvousServer.update_addr (now : Int) (rs : RendezvousServer)
    (id : String) (socket_addr : SocketAddr) :
    (RendezvousMessage × SocketAddr) × RendezvousServer :=
  match alookup rs.pm.map id with
  | some old =>
    let refreshed : Peer :=
      { old with socket_addr := socket_addr, last_reg_time := now }
    ((RendezvousMessage.register_peer_response old.pk.isEmpty, socket_addr),
     { rs with pm := { rs.pm with map := ainsert rs.pm.map id refreshed } })
  | none =>
    let pk : List Nat :=
      match alookup rs.pm.db id with
      | some v => v.pk
      | none => []
    let hydrated : Peer :=
      { socket_addr := socket_addr, last_reg_time := now, pk := pk }
    ((RendezvousMessage.register_peer_response pk.isEmpty, socket_addr),
     { rs with pm := { rs.pm with map := ainsert rs.pm.map id hydrated } })

/-- Mirror of `handle_udp_punch_hole_request`: run the shared punch-hole
logic and enqueue the message — to the forward destination when there is
one, otherwise back to the requester. -/
def RendezvousServer.handle_udp_punch_hole_request (now : Int)
    (rs : RendezvousServer) (addr : SocketAddr) (id : String) :
    (RendezvousMessage × SocketAddr) × RendezvousServer :=
  match rs.handle_punch_hole_request now addr id with
  | ((msg, some to_addr), rs1) => ((msg, to_addr), rs1)
  | ((msg, none), rs1) => ((msg, addr), rs1)

/-- Mirror of `handle_tcp_punch_hole_request`: run the shared punch-hole
logic; with a forward destination the message goes out through the outbound
queue, otherwise the failure response is written on the requester's own
pending sink (removing it). -/
def RendezvousServer.handle_tcp_punch_hole_request (now : Int)
    (rs : RendezvousServer) (addr : SocketAddr) (id : String) :
    Option (RendezvousMessage × SocketAddr) × RendezvousServer :=
  match rs.handle_punch_hole_request now addr id with
  | ((msg, some to_addr), rs1) => (some (msg, to_addr), rs1)
  | ((msg, none), rs1) => rs1.send_to_tcp msg addr

/-- Mirror of the UDP dispatch `handle_msg`: one parsed datagram from `addr`
produces a list of outgoing `(message, destination)` pairs (via the socket
or the outbound queue — at most one here) and the new state.  An empty-id
`register_peer`, a `system_info` and an unrecognized variant do nothing.
The `is_in_memory` test in the source only chooses between inline handling
and a spawned task for the same call, so both sides reduce to
`handle_udp_punch_hole_request`. -/
def RendezvousServer.handle_msg (now : Int) (rs : RendezvousServer)
    (msg : RMsgIn) (addr : SocketAddr) :
    List (RendezvousMessage × SocketAddr) × RendezvousServer :=
  match msg with
  | RMsgIn.register_peer id =>
    if id.length > 0 then
      match rs.update_addr now id addr with
      | (out, rs1) => ([out], rs1)
    else ([], rs)
  | RMsgIn.register_pk id pk =>
    match rs.handle_register_pk now id addr pk with
    | (res, rs1) => ([(RendezvousMessage.register_pk_response res, addr)], rs1)
  | RMsgIn.punch_hole_request id =>
    match rs.handle_udp_punch_hole_request now addr id with
    | (out, rs1) => ([out], rs1)
  | RMsgIn.punch_hole_sent sa =>
    match rs.handle_hole_sent sa addr true with
    | (sent, rs1) => (sent.toList, rs1)
  | RMsgIn.local_addr sa la =>
    match rs.handle_local_addr sa la addr true with
    | (sent, rs1) => (sent.toList, rs1)
  | RMsgIn.system_info _ => ([], rs)
  | RMsgIn.other => ([], rs)

/-- A message is forwarding-eligible on a stream connection when handling it
breaks the read loop (`punch_hole_sent` / `local_addr` in the `spawn`ed task
of `RendezvousServer::start`). -/
def eligibleMsg : RMsgIn → Bool
  | RMsgIn.punch_hole_sent _ => true
  | RMsgIn.local_addr _ _ => true
  | _ => false

/-- State effect of one parsed message inside a stream-connection task
(the match arms of the `spawn`ed loop in `RendezvousServer::start`):
`punch_hole_request` is handled via `handle_tcp_punch_hole_request`, the two
forwarding-eligible variants via their handlers with no UDP socket, anything
else is ignored. -/
def handle_conn_msg (now : Int) (rs : RendezvousServer) (addr : SocketAddr) :
    RMsgIn → RendezvousServer
  | RMsgIn.punch_hole_request id =>
    (rs.handle_tcp_punch_hole_request now addr id).2
  | RMsgIn.punch_hole_sent sa => (rs.handle_hole_sent sa addr false).2
  | RMsgIn.local_addr sa la => (rs.handle_local_addr sa la addr false).2
  | _ => rs

/-- The read loop of a stream-connection task over the (parsed) messages the
peer sends, in order: each message is processed; a forwarding-eligible one is
processed and then the loop breaks.  Returns the list of messages actually
processed and the resulting state. -/
def conn_loop (now : Int) (addr : SocketAddr) :
    RendezvousServer → List RMsgIn → List RMsgIn × RendezvousServer
  | rs, [] => ([], rs)
  | rs, m :: rest =>
    if eligibleMsg m then ([m], handle_conn_msg now rs addr m)
    else
      match conn_loop now addr (handle_conn_msg now rs addr m) rest with
      | (p, rs2) => (m :: p, rs2)

/-- A whole stream-connection task (the `tokio::spawn` body in
`RendezvousServer::start`): run the read loop, then unconditionally remove
the connection's sink from the pending-TCP map. -/
def conn_task (now : Int) (addr : SocketAddr) (rs : RendezvousServer)
    (msgs : List RMsgIn) : List RMsgIn × RendezvousServer :=
  match conn_loop now addr rs msgs with
  | (p, rs1) =>
    (p, { rs1 with tcp_punch := rs1.tcp_punch.filter (fun a => a ≠ addr) })

/-! Helper lemmas. -/

theorem alookup_ainsert_self {κ α : Type} [DecidableEq κ]
    (m : List (κ × α)) (k : κ) (v : α) : alookup (ainsert m k v) k = some v := by
  simp [ainsert, alookup]

theorem not_mem_filter_ne (l : List SocketAddr) (a : SocketAddr) :
    a ∉ l.filter (fun x => x ≠ a) := by
  simp [List.mem_filter]

theorem asI32_of_lt (e : Int) (h0 : 0 ≤ e) (h1 : e < 2147483648) :
    asI32 e.toNat = e := by
  simp only [asI32]
  omega

/-- C10: a `register_peer` message whose id is the empty string leaves the
whole server state (in-memory cache, durable store, pending sinks) unchanged
and produces no outgoing message. -/
theorem register_peer_empty_id_noop (now : Int) (rs : RendezvousServer)
    (addr : SocketAddr) :
    rs.handle_msg now (RMsgIn.register_peer "") addr = ([], rs) := by
  simp [RendezvousServer.handle_msg]

/-- C5: a `punch_hole_request` for an id absent from both the in-memory
cache and the durable store answers `ID_NOT_EXIST` with no forward
destination and leaves the state unchanged. -/
theorem punch_hole_unknown_id (now : Int) (rs : RendezvousServer)
    (addr : SocketAddr) (id : String)
    (h1 : alookup rs.pm.map id = none) (h2 : alookup rs.pm.db id = none) :
    rs.handle_punch_hole_request now addr id =
      ((RendezvousMessage.punch_hole_response [] Failure.ID_NOT_EXIST, none),
       rs) := by
  simp [RendezvousServer.handle_punch_hole_request, PeerMap.get, h1, h2]

/-- Witness for C5 at a concrete input. -/
theorem punch_hole_unknown_id_witness :
    RendezvousServer.handle_punch_hole_request 100000
        { tcp_punch := [], pm := { map := [], db := [] } }
        { ip := IpAddr.v4 9, port := 4000 } "nobody" =
      ((RendezvousMessage.punch_hole_response [] Failure.ID_NOT_EXIST, none),
       { tcp_punch := [], pm := { map := [], db := [] } }) :=
  punch_hole_unknown_id 100000
    { tcp_punch := [], pm := { map := [], db := [] } }
    { ip := IpAddr.v4 9, port := 4000 } "nobody" rfl rfl

/-- C2: a lookup for an id missing from the cache but present in the durable
store inserts a cache entry carrying the persisted public key together with
the placeholder endpoint `0.0.0.0:0` and a registration time one hour in the
past, leaves the durable store untouched, and returns the fully-default
placeholder record (empty key, placeholder endpoint, hour-old timestamp)
rather than the hydrated entry; a lookup missing everywhere returns `none`
and changes nothing. -/
theorem peerMap_get_hydrates_with_placeholder (now : Int) (s : PeerMap)
    (id : String) :
    (∀ v : PeerSerde, alookup s.map id = none → alookup s.db id = some v →
      s.get now id =
        (some { socket_addr := { ip := IpAddr.v4 0, port := 0 },
                last_reg_time := now - 3600000, pk := [] },
         { map := ainsert s.map id
             { socket_addr := { ip := IpAddr.v4 0, port := 0 },
               last_reg_time := now - 3600000, pk := v.pk },
           db := s.db })) ∧
    (alookup s.map id = none → alookup s.db id = none →
      s.get now id = (none, s)) := by
  constructor
  · intro v h1 h2
    simp [PeerMap.get, h1, h2, Peer.default]
  · intro h1 h2
    simp [PeerMap.get, h1, h2]

/-- Witness for C2 at a concrete input. -/
theorem peerMap_get_hydrates_with_placeholder_witness :
    PeerMap.get 7200000 { map := [], db := [("b", { ip := IpAddr.v4 7, pk := [1, 2] })] } "b" =
      (some { socket_addr := { ip := IpAddr.v4 0, port := 0 },
              last_reg_time := 3600000, pk := [] },
       { map := [("b", { socket_addr := { ip := IpAddr.v4 0, port := 0 },
                         last_reg_time := 3600000, pk := [1, 2] })],
         db := [("b", { ip := IpAddr.v4 7, pk := [1, 2] })] }) ∧
    PeerMap.get 7200000 { map := [], db := [] } "b" = (none, { map := [], db := [] }) := by
  constructor
  · exact (peerMap_get_hydrates_with_placeholder 7200000
      { map := [], db := [("b", { ip := IpAddr.v4 7, pk := [1, 2] })] } "b").1
      { ip := IpAddr.v4 7, pk := [1, 2] } rfl rfl
  · exact (peerMap_get_hydrates_with_placeholder 7200000
      { map := [], db := [] } "b").2 rfl rfl

/-- C9: a `punch_hole_request` whose target id is missing from the cache but
present in the durable store is answered `OFFLINE` with no forward: the
hydrating lookup hands back the placeholder record whose registration time
lies one hour in the past, which always fails the 30000 ms liveness check. -/
theorem punch_hole_db_only_offline (now : Int) (rs : RendezvousServer)
    (addr : SocketAddr) (id : String) (v : PeerSerde)
    (h1 : alookup rs.pm.map id = none) (h2 : alookup rs.pm.db id = some v) :
    (rs.handle_punch_hole_request now addr id).1 =
      (RendezvousMessage.punch_hole_response [] Failure.OFFLINE, none) := by
  have hget : rs.pm.get now id =
      (some (Peer.default now),
       { rs.pm with
         map := ainsert rs.pm.map id { Peer.default now with pk := v.pk } }) := by
    simp [PeerMap.get, h1, h2]
  have helapsed : asI32 (now - (Peer.default now).last_reg_time).toNat = 3600000 := by
    have : now - (Peer.default now).last_reg_time = 3600000 := by
      simp [Peer.default]
    rw [this]
    decide
  simp [RendezvousServer.handle_punch_hole_request, hget, helapsed, REG_TIMEOUT]

/-- Witness for C9 at a concrete input. -/
theorem punch_hole_db_only_offline_witness :
    (RendezvousServer.handle_punch_hole_request 7200000
        { tcp_punch := [],
          pm := { map := [], db := [("b", { ip := IpAddr.v4 7, pk := [1] })] } }
        { ip := IpAddr.v4 9, port := 4000 } "b").1 =
      (RendezvousMessage.punch_hole_response [] Failure.OFFLINE, none) :=
  punch_hole_db_only_offline 7200000
    { tcp_punch := [],
      pm := { map := [], db := [("b", { ip := IpAddr.v4 7, pk := [1] })] } }
    { ip := IpAddr.v4 9, port := 4000 } "b" { ip := IpAddr.v4 7, pk := [1] }
    rfl rfl

/-- C6: on receiving `punch_hole_sent` from observed address `addr` carrying
encoded endpoint bytes `E`, the server builds a `punch_hole_response` whose
`socket_addr` is the encoded server-observed sender endpoint and delivers it
to `decode E`; on receiving `local_addr` the response instead carries the raw
`local_addr` bytes reported by the target and is likewise delivered to
`decode E`.  Over UDP delivery is direct; over TCP it goes through the
requester's pending sink, which must still be open. -/
theorem hole_sent_local_addr_delivery (rs : RendezvousServer)
    (E la : List Nat) (addr : SocketAddr) (viaUdp : Bool)
    (h : viaUdp = true ∨ rs.tcp_punch.contains (AddrMangle.decode E) = true) :
    (rs.handle_hole_sent E addr viaUdp).1 =
      some (RendezvousMessage.punch_hole_response (AddrMangle.encode addr)
              Failure.NONE,
            AddrMangle.decode E) ∧
    (rs.handle_local_addr E la addr viaUdp).1 =
      some (RendezvousMessage.punch_hole_response la Failure.NONE,
            AddrMangle.decode E) := by
  rcases h with h | h
  · subst h
    constructor <;> rfl
  · cases hvia : viaUdp
    · have hmem : AddrMangle.decode E ∈ rs.tcp_punch := by
        simpa using h
      constructor <;>
        simp [RendezvousServer.handle_hole_sent,
          RendezvousServer.handle_local_addr, RendezvousServer.send_to_tcp,
          hmem]
    · constructor <;> rfl

/-- Witness for C6 at concrete inputs (TCP path with an open sink). -/
theorem hole_sent_local_addr_delivery_witness :
    (RendezvousServer.handle_hole_sent
        { tcp_punch := [{ ip := IpAddr.v4 9, port := 4000 }],
          pm := { map := [], db := [] } }
        [0, 9, 4000] { ip := IpAddr.v4 1, port := 5000 } false).1 =
      some (RendezvousMessage.punch_hole_response [0, 1, 5000] Failure.NONE,
            { ip := IpAddr.v4 9, port := 4000 }) ∧
    (RendezvousServer.handle_local_addr
        { tcp_punch := [{ ip := IpAddr.v4 9, port := 4000 }],
          pm := { map := [], db := [] } }
        [0, 9, 4000] [42, 43] { ip := IpAddr.v4 1, port := 5000 } false).1 =
      some (RendezvousMessage.punch_hole_response [42, 43] Failure.NONE,
            { ip := IpAddr.v4 9, port := 4000 }) :=
  hole_sent_local_addr_delivery
    { tcp_punch := [{ ip := IpAddr.v4 9, port := 4000 }],
      pm := { map := [], db := [] } }
    [0, 9, 4000] [42, 43] { ip := IpAddr.v4 1, port := 5000 } false
    (Or.inr rfl)

/-- The `same_intranet` test of the source holds exactly when the two
addresses' IPs agree (which forces the same address family). -/
theorem same_intranet_check_iff (p q : SocketAddr) :
    same_intranet_check p q = true ↔ p.ip = q.ip := by
  cases hp : p.ip <;> cases hq : q.ip <;>
    simp [same_intranet_check, hp, hq]

/-- C4: a `punch_hole_request` whose target is cached and fresh (elapsed
registration age below 30000 ms) forwards `fetch_local_addr` carrying the
encoded requester endpoint to the target's last known endpoint when the
requester's observed IP equals the target's last known IP (same address
family), and forwards `punch_hole` with the same payload and destination
when the IPs or the families differ. -/
theorem punch_hole_fresh_classification (now : Int) (rs : RendezvousServer)
    (addr : SocketAddr) (id : String) (peer : Peer)
    (hm : alookup rs.pm.map id = some peer)
    (h0 : 0 ≤ now - peer.last_reg_time)
    (h1 : now - peer.last_reg_time < 30000) :
    (peer.socket_addr.ip = addr.ip →
      (rs.handle_punch_hole_request now addr id).1 =
        (RendezvousMessage.fetch_local_addr (AddrMangle.encode addr),
         some peer.socket_addr)) ∧
    (peer.socket_addr.ip ≠ addr.ip →
      (rs.handle_punch_hole_request now addr id).1 =
        (RendezvousMessage.punch_hole (AddrMangle.encode addr),
         some peer.socket_addr)) := by
  have hget : rs.pm.get now id = (some peer, rs.pm) := by
    simp [PeerMap.get, hm]
  have hfresh : ¬ asI32 (now - peer.last_reg_time).toNat ≥ REG_TIMEOUT := by
    rw [asI32_of_lt _ h0 (by omega), REG_TIMEOUT]
    omega
  constructor
  · intro hip
    have hsame : same_intranet_check peer.socket_addr addr = true :=
      (same_intranet_check_iff _ _).2 hip
    simp [RendezvousServer.handle_punch_hole_request, hget, hfresh, hsame]
  · intro hip
    have hsame : same_intranet_check peer.socket_addr addr = false := by
      rcases hcheck : same_intranet_check peer.socket_addr addr with _ | _
      · rfl
      · exact absurd ((same_intranet_check_iff _ _).1 hcheck) hip
    simp [RendezvousServer.handle_punch_hole_request, hget, hfresh, hsame]

/-- Witness for C4 at concrete inputs: same IP yields `fetch_local_addr`,
different IP yields `punch_hole`, both towards the target's endpoint. -/
theorem punch_hole_fresh_classification_witness :
    (RendezvousServer.handle_punch_hole_request 1000
        { tcp_punch := [],
          pm := { map := [("b", { socket_addr := { ip := IpAddr.v4 1, port := 5000 },
                                  last_reg_time := 0, pk := [1] })],
                  db := [] } }
        { ip := IpAddr.v4 1, port := 4000 } "b").1 =
      (RendezvousMessage.fetch_local_addr [0, 1, 4000],
       some { ip := IpAddr.v4 1, port := 5000 }) ∧
    (RendezvousServer.handle_punch_hole_request 1000
        { tcp_punch := [],
          pm := { map := [("b", { socket_addr := { ip := IpAddr.v4 1, port := 5000 },
                                  last_reg_time := 0, pk := [1] })],
                  db := [] } }
        { ip := IpAddr.v4 9, port := 4000 } "b").1 =
      (RendezvousMessage.punch_hole [0, 9, 4000],
       some { ip := IpAddr.v4 1, port := 5000 }) := by
  constructor
  · exact (punch_hole_fresh_classification 1000
      { tcp_punch := [],
        pm := { map := [("b", { socket_addr := { ip := IpAddr.v4 1, port := 5000 },
                                last_reg_time := 0, pk := [1] })],
                db := [] } }
      { ip := IpAddr.v4 1, port := 4000 } "b"
      { socket_addr := { ip := IpAddr.v4 1, port := 5000 },
        last_reg_time := 0, pk := [1] }
      rfl (by decide) (by decide)).1 rfl
  · exact (punch_hole_fresh_classification 1000
      { tcp_punch := [],
        pm := { map := [("b", { socket_addr := { ip := IpAddr.v4 1, port := 5000 },
                                last_reg_time := 0, pk := [1] })],
                db := [] } }
      { ip := IpAddr.v4 9, port := 4000 } "b"
      { socket_addr := { ip := IpAddr.v4 1, port := 5000 },
        last_reg_time := 0, pk := [1] }
      rfl (by decide) (by decide)).2 (by decide)

/-- Counterexample to C3 as stated: the target "b" is registered with a
registration time 2147483648 ms (= 2^31 ms, about 24.9 days) in the past —
well beyond the 30000 ms threshold — yet the `as i32` cast of the elapsed
milliseconds wraps to a negative value, the staleness check fails, and the
server forwards `punch_hole` to the target instead of answering `OFFLINE`. -/
theorem punch_hole_stale_wrap_counterexample :
    (30000 : Int) ≤ 2147483648 - 0 ∧
    (RendezvousServer.handle_punch_hole_request 2147483648
        { tcp_punch := [],
          pm := { map := [("b", { socket_addr := { ip := IpAddr.v4 1, port := 5000 },
                                  last_reg_time := 0, pk := [1] })],
                  db := [] } }
        { ip := IpAddr.v4 9, port := 4000 } "b").1 =
      (RendezvousMessage.punch_hole [0, 9, 4000],
       some { ip := IpAddr.v4 1, port := 5000 }) := by
  constructor
  · decide
  · rfl

/-- C3 (amended): a `punch_hole_request` whose target is cached with a
registration time at least 30000 ms and less than 2^31 ms in the past is
answered with failure `OFFLINE`, no message is forwarded to the target, and
the server state — in particular the registry entry — is left unchanged. -/
theorem punch_hole_stale_offline (now : Int) (rs : RendezvousServer)
    (addr : SocketAddr) (id : String) (peer : Peer)
    (hm : alookup rs.pm.map id = some peer)
    (h1 : 30000 ≤ now - peer.last_reg_time)
    (h2 : now - peer.last_reg_time < 2147483648) :
    rs.handle_punch_hole_request now addr id =
      ((RendezvousMessage.punch_hole_response [] Failure.OFFLINE, none),
       rs) := by
  have hget : rs.pm.get now id = (some peer, rs.pm) := by
    simp [PeerMap.get, hm]
  have hstale : asI32 (now - peer.last_reg_time).toNat ≥ REG_TIMEOUT := by
    rw [asI32_of_lt _ (by omega) h2, REG_TIMEOUT]
    omega
  simp [RendezvousServer.handle_punch_hole_request, hget, hstale]

/-- Witness for the amended C3 at a concrete input (entry 40000 ms old). -/
theorem punch_hole_stale_offline_witness :
    RendezvousServer.handle_punch_hole_request 40000
        { tcp_punch := [],
          pm := { map := [("b", { socket_addr := { ip := IpAddr.v4 1, port := 5000 },
                                  last_reg_time := 0, pk := [1] })],
                  db := [] } }
        { ip := IpAddr.v4 9, port := 4000 } "b" =
      ((RendezvousMessage.punch_hole_response [] Failure.OFFLINE, none),
       { tcp_punch := [],
         pm := { map := [("b", { socket_addr := { ip := IpAddr.v4 1, port := 5000 },
                                 last_reg_time := 0, pk := [1] })],
                 db := [] } }) :=
  punch_hole_stale_offline 40000
    { tcp_punch := [],
      pm := { map := [("b", { socket_addr := { ip := IpAddr.v4 1, port := 5000 },
                              last_reg_time := 0, pk := [1] })],
              db := [] } }
    { ip := IpAddr.v4 9, port := 4000 } "b"
    { socket_addr := { ip := IpAddr.v4 1, port := 5000 },
      last_reg_time := 0, pk := [1] }
    rfl (by decide) (by decide)

/-- Counterexample to C1 as stated: id "b" exists only in the durable store
with the non-empty key `[1]`.  A `register_pk` carrying the different key
`[2]` is accepted with `OK` — not `PK_MISMATCH` — and the stored key (in both
the hydrated cache entry and the durable store) becomes `[2]`: the hydrating
lookup returns the placeholder record with an empty key, so the mismatch
check never sees the persisted key. -/
theorem register_pk_db_only_overwrite_counterexample :
    (RendezvousServer.handle_register_pk 5000000
        { tcp_punch := [],
          pm := { map := [], db := [("b", { ip := IpAddr.v4 7, pk := [1] })] } }
        "b" { ip := IpAddr.v4 9, port := 2 } [2]).1 = RegisterPkResult.OK ∧
    alookup (RendezvousServer.handle_register_pk 5000000
        { tcp_punch := [],
          pm := { map := [], db := [("b", { ip := IpAddr.v4 7, pk := [1] })] } }
        "b" { ip := IpAddr.v4 9, port := 2 } [2]).2.pm.map "b" =
      some { socket_addr := { ip := IpAddr.v4 9, port := 2 },
             last_reg_time := 5000000, pk := [2] } ∧
    alookup (RendezvousServer.handle_register_pk 5000000
        { tcp_punch := [],
          pm := { map := [], db := [("b", { ip := IpAddr.v4 7, pk := [1] })] } }
        "b" { ip := IpAddr.v4 9, port := 2 } [2]).2.pm.db "b" =
      some { ip := IpAddr.v4 9, pk := [2] } := by
  refine ⟨rfl, rfl, rfl⟩

/-- C1 (amended): for an id whose in-memory cache entry carries a non-empty
public key, a `register_pk` with a different key answers `PK_MISMATCH` and
leaves the whole server state — in particular the stored key — unchanged.
(The counterexample shows the protection does not extend to ids resident
only in the durable store.) -/
theorem register_pk_mismatch_preserves_cached_key (now : Int)
    (rs : RendezvousServer) (id : String) (addr : SocketAddr) (pk : List Nat)
    (peer : Peer) (hm : alookup rs.pm.map id = some peer)
    (hne : peer.pk ≠ []) (hdiff : pk ≠ peer.pk) :
    rs.handle_register_pk now id addr pk = (RegisterPkResult.PK_MISMATCH, rs) := by
  have hget : rs.pm.get now id = (some peer, rs.pm) := by
    simp [PeerMap.get, hm]
  have hdiff2 : peer.pk ≠ pk := fun h => hdiff h.symm
  simp [RendezvousServer.handle_register_pk, hget, hne, hdiff2]

/-- Witness for the amended C1 at a concrete input. -/
theorem register_pk_mismatch_preserves_cached_key_witness :
    RendezvousServer.handle_register_pk 1000
        { tcp_punch := [],
          pm := { map := [("b", { socket_addr := { ip := IpAddr.v4 1, port := 1 },
                                  last_reg_time := 0, pk := [1] })],
                  db := [] } }
        "b" { ip := IpAddr.v4 2, port := 2 } [2] =
      (RegisterPkResult.PK_MISMATCH,
       { tcp_punch := [],
         pm := { map := [("b", { socket_addr := { ip := IpAddr.v4 1, port := 1 },
                                 last_reg_time := 0, pk := [1] })],
                 db := [] } }) :=
  register_pk_mismatch_preserves_cached_key 1000
    { tcp_punch := [],
      pm := { map := [("b", { socket_addr := { ip := IpAddr.v4 1, port := 1 },
                              last_reg_time := 0, pk := [1] })],
              db := [] } }
    "b" { ip := IpAddr.v4 2, port := 2 } [2]
    { socket_addr := { ip := IpAddr.v4 1, port := 1 },
      last_reg_time := 0, pk := [1] }
    rfl (by decide) (by decide)

/-- Helper: a `register_pk` whose candidate equals the cached key answers
`OK` and leaves a cache entry with that key in place. -/
theorem register_pk_cached_key_eq (now : Int) (rs : RendezvousServer)
    (id : String) (addr : SocketAddr) (pk : List Nat) (p : Peer)
    (hm : alookup rs.pm.map id = some p) (hpk : p.pk = pk) :
    (rs.handle_register_pk now id addr pk).1 = RegisterPkResult.OK ∧
    ∃ q : Peer,
      alookup (rs.handle_register_pk now id addr pk).2.pm.map id = some q ∧
      q.pk = pk := by
  have hget : rs.pm.get now id = (some p, rs.pm) := by
    simp [PeerMap.get, hm]
  by_cases he : p.pk = []
  · have hpke : pk = [] := hpk ▸ he
    refine ⟨?_, ?_⟩ <;>
      simp [RendezvousServer.handle_register_pk, hget, he, PeerMap.update_pk,
        alookup_ainsert_self, hpke]
  · have hcond : ¬ p.pk ≠ pk := by simp [hpk]
    refine ⟨?_, p, ?_, hpk⟩ <;>
      simp [RendezvousServer.handle_register_pk, hget, he, hcond, hm]

/-- Helper: a `register_pk` succeeds with `OK` and leaves a cache entry
carrying the candidate key whenever the id is not cache-resident with a
non-empty key different from the candidate. -/
theorem register_pk_first_accepts (now : Int) (rs : RendezvousServer)
    (id : String) (addr : SocketAddr) (pk : List Nat)
    (h : ∀ p : Peer, alookup rs.pm.map id = some p → p.pk = [] ∨ p.pk = pk) :
    (rs.handle_register_pk now id addr pk).1 = RegisterPkResult.OK ∧
    ∃ q : Peer,
      alookup (rs.handle_register_pk now id addr pk).2.pm.map id = some q ∧
      q.pk = pk := by
  cases hm : alookup rs.pm.map id with
  | some p =>
    rcases h p hm with he | hpk
    · have hget : rs.pm.get now id = (some p, rs.pm) := by
        simp [PeerMap.get, hm]
      refine ⟨?_, ?_⟩ <;>
        simp [RendezvousServer.handle_register_pk, hget, he, PeerMap.update_pk,
          alookup_ainsert_self]
    · exact register_pk_cached_key_eq now rs id addr pk p hm hpk
  | none =>
    cases hdb : alookup rs.pm.db id with
    | some v =>
      have hget : rs.pm.get now id =
          (some (Peer.default now),
           { rs.pm with
             map := ainsert rs.pm.map id { Peer.default now with pk := v.pk } }) := by
        simp [PeerMap.get, hm, hdb]
      refine ⟨?_, ?_⟩ <;>
        simp [RendezvousServer.handle_register_pk, hget, Peer.default,
          PeerMap.update_pk, alookup_ainsert_self]
    | none =>
      have hget : rs.pm.get now id = (none, rs.pm) := by
        simp [PeerMap.get, hm, hdb]
      refine ⟨?_, ?_⟩ <;>
        simp [RendezvousServer.handle_register_pk, hget, PeerMap.update_pk,
          alookup_ainsert_self]

/-- Counterexample to C7 as stated: id "b" is cache-resident with the
non-empty key `[1]`.  Calling `register_pk` twice in a row with the key `[2]`
answers `PK_MISMATCH` both times — not `OK` — and the stored key stays `[1]`,
not `[2]`. -/
theorem register_pk_twice_counterexample :
    (RendezvousServer.handle_register_pk 0
        { tcp_punch := [],
          pm := { map := [("b", { socket_addr := { ip := IpAddr.v4 1, port := 1 },
                                  last_reg_time := 0, pk := [1] })],
                  db := [] } }
        "b" { ip := IpAddr.v4 2, port := 2 } [2]).1 =
      RegisterPkResult.PK_MISMATCH ∧
    ((RendezvousServer.handle_register_pk 0
        { tcp_punch := [],
          pm := { map := [("b", { socket_addr := { ip := IpAddr.v4 1, port := 1 },
                                  last_reg_time := 0, pk := [1] })],
                  db := [] } }
        "b" { ip := IpAddr.v4 2, port := 2 } [2]).2.handle_register_pk 0
        "b" { ip := IpAddr.v4 2, port := 2 } [2]).1 =
      RegisterPkResult.PK_MISMATCH ∧
    alookup ((RendezvousServer.handle_register_pk 0
        { tcp_punch := [],
          pm := { map := [("b", { socket_addr := { ip := IpAddr.v4 1, port := 1 },
                                  last_reg_time := 0, pk := [1] })],
                  db := [] } }
        "b" { ip := IpAddr.v4 2, port := 2 } [2]).2.handle_register_pk 0
        "b" { ip := IpAddr.v4 2, port := 2 } [2]).2.pm.map "b" =
      some { socket_addr := { ip := IpAddr.v4 1, port := 1 },
             last_reg_time := 0, pk := [1] } := by
  refine ⟨rfl, rfl, rfl⟩

/-- C7 (amended): for every id and key K, provided the id is not
cache-resident with a non-empty stored key different from K, performing
`register_pk(id, K)` twice in a row answers `OK` both times and the key
stored in the registry after both calls is K. -/
theorem register_pk_idempotent (now1 now2 : Int) (rs : RendezvousServer)
    (id : String) (addr1 addr2 : SocketAddr) (pk : List Nat)
    (h : ∀ p : Peer, alookup rs.pm.map id = some p → p.pk = [] ∨ p.pk = pk) :
    (rs.handle_register_pk now1 id addr1 pk).1 = RegisterPkResult.OK ∧
    ((rs.handle_register_pk now1 id addr1 pk).2.handle_register_pk now2
        id addr2 pk).1 = RegisterPkResult.OK ∧
    ∃ q : Peer,
      alookup ((rs.handle_register_pk now1 id addr1 pk).2.handle_register_pk
        now2 id addr2 pk).2.pm.map id = some q ∧ q.pk = pk := by
  obtain ⟨h1, q1, hq1, hq1pk⟩ :=
    register_pk_first_accepts now1 rs id addr1 pk h
  obtain ⟨h2, q2, hq2, hq2pk⟩ :=
    register_pk_cached_key_eq now2 _ id addr2 pk q1 hq1 hq1pk
  exact ⟨h1, h2, q2, hq2, hq2pk⟩

/-- Witness for the amended C7 at a concrete input (fresh id). -/
theorem register_pk_idempotent_witness :
    (RendezvousServer.handle_register_pk 10
        { tcp_punch := [], pm := { map := [], db := [] } }
        "b" { ip := IpAddr.v4 2, port := 2 } [5]).1 = RegisterPkResult.OK ∧
    ((RendezvousServer.handle_register_pk 10
        { tcp_punch := [], pm := { map := [], db := [] } }
        "b" { ip := IpAddr.v4 2, port := 2 } [5]).2.handle_register_pk 20
        "b" { ip := IpAddr.v4 2, port := 2 } [5]).1 = RegisterPkResult.OK ∧
    ∃ q : Peer,
      alookup ((RendezvousServer.handle_register_pk 10
        { tcp_punch := [], pm := { map := [], db := [] } }
        "b" { ip := IpAddr.v4 2, port := 2 } [5]).2.handle_register_pk 20
        "b" { ip := IpAddr.v4 2, port := 2 } [5]).2.pm.map "b" = some q ∧
      q.pk = [5] :=
  register_pk_idempotent 10 20
    { tcp_punch := [], pm := { map := [], db := [] } }
    "b" { ip := IpAddr.v4 2, port := 2 } { ip := IpAddr.v4 2, port := 2 } [5]
    (fun p hp => by simp [alookup] at hp)

/-- Helper: the read loop processes exactly the ineligible prefix plus the
first forwarding-eligible message, and nothing after it. -/
theorem conn_loop_processed (now : Int) (addr : SocketAddr) (e : RMsgIn)
    (post : List RMsgIn) (he : eligibleMsg e = true) :
    ∀ (pre : List RMsgIn) (rs : RendezvousServer),
      (∀ m ∈ pre, eligibleMsg m = false) →
      (conn_loop now addr rs (pre ++ e :: post)).1 = pre ++ [e] := by
  intro pre
  induction pre with
  | nil =>
    intro rs _
    simp [conn_loop, he]
  | cons m rest ih =>
    intro rs hpre
    have hm : eligibleMsg m = false := hpre m (List.mem_cons_self m rest)
    have hrest : ∀ x ∈ rest, eligibleMsg x = false :=
      fun x hx => hpre x (List.mem_cons_of_mem m hx)
    have := ih (handle_conn_msg now rs addr m) hrest
    simp only [List.cons_append, conn_loop, hm, Bool.false_eq_true, if_false]
    rcases hrec : conn_loop now addr (handle_conn_msg now rs addr m)
        (rest ++ e :: post) with ⟨p, rs2⟩
    simp only [hrec] at this ⊢
    simp [this]

/-- Helper: the processed list of a whole connection task is that of its
read loop. -/
theorem conn_task_fst (now : Int) (addr : SocketAddr) (rs : RendezvousServer)
    (msgs : List RMsgIn) :
    (conn_task now addr rs msgs).1 = (conn_loop now addr rs msgs).1 := by
  unfold conn_task
  rcases conn_loop now addr rs msgs with ⟨p, rs1⟩
  rfl

/-- Helper: after a connection task finishes, its address holds no pending
sink. -/
theorem conn_task_removed (now : Int) (addr : SocketAddr)
    (rs : RendezvousServer) (msgs : List RMsgIn) :
    addr ∉ (conn_task now addr rs msgs).2.tcp_punch := by
  unfold conn_task
  rcases conn_loop now addr rs msgs with ⟨p, rs1⟩
  exact not_mem_filter_ne rs1.tcp_punch addr

/-- C8: once a stream connection's first forwarding-eligible message
(`punch_hole_sent` or `local_addr`) has been handled, the read loop stops:
the messages processed on the connection are exactly the ineligible prefix
plus that one message — whatever arrives afterwards is never processed — and
the connection's entry is gone from the pending-TCP map when the task
finishes. -/
theorem conn_single_use (now : Int) (addr : SocketAddr)
    (rs : RendezvousServer) (pre : List RMsgIn) (e : RMsgIn)
    (post : List RMsgIn) (hpre : ∀ m ∈ pre, eligibleMsg m = false)
    (he : eligibleMsg e = true) :
    (conn_task now addr rs (pre ++ e :: post)).1 = pre ++ [e] ∧
    addr ∉ (conn_task now addr rs (pre ++ e :: post)).2.tcp_punch := by
  constructor
  · rw [conn_task_fst]
    exact conn_loop_processed now addr e post he pre rs hpre
  · exact conn_task_removed now addr rs (pre ++ e :: post)

/-- Witness for C8 at a concrete input: a `punch_hole_request` precedes the
eligible `punch_hole_sent`, and a further message after it is dropped. -/
theorem conn_single_use_witness :
    (conn_task 1000 { ip := IpAddr.v4 1, port := 5000 }
        { tcp_punch := [{ ip := IpAddr.v4 1, port := 5000 }],
          pm := { map := [], db := [] } }
        ([RMsgIn.punch_hole_request "b"] ++
          RMsgIn.punch_hole_sent [0, 9, 4000] :: [RMsgIn.other])).1 =
      [RMsgIn.punch_hole_request "b"] ++ [RMsgIn.punch_hole_sent [0, 9, 4000]] ∧
    { ip := IpAddr.v4 1, port := 5000 } ∉
      (conn_task 1000 { ip := IpAddr.v4 1, port := 5000 }
        { tcp_punch := [{ ip := IpAddr.v4 1, port := 5000 }],
          pm := { map := [], db := [] } }
        ([RMsgIn.punch_hole_request "b"] ++
          RMsgIn.punch_hole_sent [0, 9, 4000] :: [RMsgIn.other])).2.tcp_punch :=
  conn_single_use 1000 { ip := IpAddr.v4 1, port := 5000 }
    { tcp_punch := [{ ip := IpAddr.v4 1, port := 5000 }],
      pm := { map := [], db := [] } }
    [RMsgIn.punch_hole_request "b"] (RMsgIn.punch_hole_sent [0, 9, 4000])
    [RMsgIn.other]
    (by intro m hm; simp at hm; subst hm; rfl)
    rfl
